import Mathlib

/-!
Shallow embedding of the filter-form library
(`src/modules/components/filterForm.py` and `src/modules/dashboard/utils.py`).

Conventions of the embedding:
* Python exceptions become an explicit `Err` value returned next to the
  post-state: a "setter" `σ → input → σ × Option Err` returns the state the
  object is left in (Python mutates in place, so a raise can leave a
  partially mutated object) together with the raised error, if any.
* Python `None` for an optional string becomes `Option String`; Python string
  truthiness (`if value:`) becomes `strTruthy`.
* Python dictionaries become association lists with unique keys, in insertion
  order; `dict.get` is first-match lookup (keys are unique in every dict the
  code builds).
* Dynamic `isinstance` checks on the utilities' arguments are modelled with
  the wrapper `PyIn`: `.wrongType` stands for an argument of the wrong
  runtime type.
-/

namespace FilterFormLib

/-- Python exceptions raised by the library: `ValueError` (the spec's
`ValidationError` / `ValueNotFoundError` / `InvalidFieldError` / `ShapeError`)
and `KeyError` (the spec's `UnknownFieldError`). -/
inductive Err where
  | valueError (msg : String)
  | keyError (msg : String)
deriving Repr, DecidableEq

/-- Python truthiness of an optional string: `None` and `""` are falsy. -/
def strTruthy : Option String → Bool
  | none => false
  | some s => !s.isEmpty

/-- Numeric value of a decimal digit character. -/
def digitVal (c : Char) : Nat := c.toNat - '0'.toNat

/-- Gregorian leap-year rule used by Python's `datetime`. -/
def isLeapYear (y : Nat) : Bool :=
  y % 4 == 0 && (y % 100 != 0 || y % 400 == 0)

/-- Days in a month, as validated by `datetime`'s constructor. -/
def daysInMonth (y m : Nat) : Nat :=
  if m == 2 then (if isLeapYear y then 29 else 28)
  else if m == 4 || m == 6 || m == 9 || m == 11 then 30
  else 31

/-- The `%m` token of `strptime`: regex `1[0-2]|0[1-9]|[1-9]`, alternatives
tried in this order (a two-character match consumes both characters). -/
def parseMonthTok : List Char → Option (Nat × List Char)
  | c1 :: c2 :: rest =>
    if c1 == '1' && ('0' ≤ c2 && c2 ≤ '2') then some (10 + digitVal c2, rest)
    else if c1 == '0' && ('1' ≤ c2 && c2 ≤ '9') then some (digitVal c2, rest)
    else if '1' ≤ c1 && c1 ≤ '9' then some (digitVal c1, c2 :: rest)
    else none
  | [c1] => if '1' ≤ c1 && c1 ≤ '9' then some (digitVal c1, []) else none
  | [] => none

/-- The `%d` token of `strptime`: regex `3[01]|[12]\d|0[1-9]|[1-9]`. -/
def parseDayTok : List Char → Option (Nat × List Char)
  | c1 :: c2 :: rest =>
    if c1 == '3' && (c2 == '0' || c2 == '1') then some (30 + digitVal c2, rest)
    else if (c1 == '1' || c1 == '2') && c2.isDigit then
      some (10 * digitVal c1 + digitVal c2, rest)
    else if c1 == '0' && ('1' ≤ c2 && c2 ≤ '9') then some (digitVal c2, rest)
    else if '1' ≤ c1 && c1 ≤ '9' then some (digitVal c1, c2 :: rest)
    else none
  | [c1] => if '1' ≤ c1 && c1 ≤ '9' then some (digitVal c1, []) else none
  | [] => none

/-- `datetime.strptime(s, "%Y-%m-%d")`: `%Y` is exactly four digits, the two
hyphens are literal, nothing may remain after the day token, and the
resulting `(y, m, d)` must be a real calendar date (`datetime` rejects
year 0 and a day past the end of the month). Returns `none` where Python
raises `ValueError`. -/
def strptimeYMD (s : String) : Option (Nat × Nat × Nat) :=
  match s.toList with
  | a :: b :: c :: d :: '-' :: rest =>
    if a.isDigit && b.isDigit && c.isDigit && d.isDigit then
      let y := ((digitVal a * 10 + digitVal b) * 10 + digitVal c) * 10 + digitVal d
      match parseMonthTok rest with
      | some (m, '-' :: rest2) =>
        match parseDayTok rest2 with
        | some (dd, []) =>
          if 1 ≤ y && dd ≤ daysInMonth y m then some (y, m, dd) else none
        | _ => none
      | _ => none
    else none
  | _ => none

/-- Whether `dt.strptime(s, "%Y-%m-%d")` succeeds. -/
def isValidDateString (s : String) : Bool := (strptimeYMD s).isSome

/-- Class `DateSelector`. `_value` is the stored date string. -/
structure DateSelector where
  name : Option String
  label_name : String
  _value : String
deriving Repr, DecidableEq

/-- `DateSelector.__init__(name, label_name, value)`. `today` is the string
`dt.today().strftime("%Y-%m-%d")`, passed in explicitly since the embedding
is pure. A truthy `value` is stored as-is (the base-class constructor writes
`_value` directly, without the setter's validation); a falsy one is replaced
by `today`. -/
def DateSelector.make (today : String) (name : String) (label_name : Option String)
    (value : Option String) : DateSelector :=
  { name := some name
    label_name := if strTruthy label_name then label_name.getD ""
                  else name.replace "_" " "
    _value := if strTruthy value then value.getD "" else today }

/-- The `DateSelector.value` getter. -/
def DateSelector.valueGet (d : DateSelector) : String := d._value

/-- The `DateSelector.value` setter: `None` is a no-op; a string is stored
verbatim when `strptime` accepts it, else `ValueError` is raised and the
state is untouched. -/
def DateSelector.setValue (d : DateSelector) (v : Option String) :
    DateSelector × Option Err :=
  match v with
  | none => (d, none)
  | some s =>
    if isValidDateString s then ({ d with _value := s }, none)
    else (d, some (.valueError
      ("Invalid date format for '" ++ s ++ "'. Expected format: %Y-%m-%d")))

/-- Class `Option` of the source (named `Opt` here to avoid shadowing Lean's
`Option`): one selectable value with a selection flag. -/
structure Opt where
  value : String
  is_selected : Bool
deriving Repr, DecidableEq

/-- `Option.default_value`, the "match anything" sentinel. -/
def Opt.default_value : String := "ANY"

/-- Class `Select`. The Python object keeps `_value` as a reference to the
selected `Option` object inside `_options`; the embedding keeps the
selected index instead (`selIdx`), which is observationally the same since
no method ever rebuilds the option list. -/
structure Select where
  name : Option String
  label_name : String
  _options : List Opt
  selIdx : Option Nat
deriving Repr, DecidableEq

/-- The `Select.value` getter: the selected option's value, or `None`. -/
def Select.valueGet (s : Select) : Option String :=
  match s.selIdx with
  | some i => (s._options.get? i).map (·.value)
  | none => none

/-- `Select.reset`: clear every selection flag and the selected reference. -/
def Select.reset (s : Select) : Select :=
  { s with _options := s._options.map (fun o => { o with is_selected := false })
           selIdx := none }

/-- The `for option in self.options:` loop of the `value` setter: find the
first option whose value equals the target (Python compares
`str(option.value) == str(opt_val)`; both are strings here), flag it, and
report its index. `none` when no option matches. -/
def selectScan (v : String) : List Opt → Option (List Opt × Nat)
  | [] => none
  | o :: rest =>
    if o.value == v then some ({ o with is_selected := true } :: rest, 0)
    else
      match selectScan v rest with
      | some (rest', i) => some (o :: rest', i + 1)
      | none => none

/-- Python `repr` of the list of option values, as interpolated into the
`ValueError` message of the `value` setter. -/
def availableRepr (opts : List Opt) : String :=
  "[" ++ String.intercalate ", " (opts.map (fun o => "'" ++ o.value ++ "'")) ++ "]"

/-- Python string interpolation of the (possibly `None`) field name. -/
def pyShowName : Option String → String
  | none => "None"
  | some n => n

/-- The `Select.value` setter: `None` is a no-op; otherwise all flags are
cleared first (`self.reset()`), then the options are scanned in order; if
no option matches, `ValueError` is raised with the object left fully
deselected. -/
def Select.setValue (s : Select) (optVal : Option String) : Select × Option Err :=
  match optVal with
  | none => (s, none)
  | some v =>
    let s' := s.reset
    match selectScan v s'._options with
    | some (opts', i) => ({ s' with _options := opts', selIdx := some i }, none)
    | none =>
      (s', some (.valueError
        ("failed to select value '" ++ v ++ "' in Select '" ++ pyShowName s'.name
          ++ "'. available: " ++ availableRepr s'._options)))

/-- `Select.__init__(name, label_name, options, value)`: build one option per
given string, prepend the sentinel option, reset, then run the `value`
setter on `value` if truthy else on the sentinel value. A `ValueError`
raised by the setter propagates out of the constructor. -/
def Select.make (name : String) (label_name : String) (options : List String)
    (value : Option String) : Select × Option Err :=
  let s : Select :=
    { name := some name
      label_name := label_name
      _options := { value := Opt.default_value, is_selected := false }
                    :: options.map (fun o => { value := o, is_selected := false })
      selIdx := none }
  let s := s.reset
  s.setValue (some (if strTruthy value then value.getD "" else Opt.default_value))

/-- `Select.rename(new_label_name, new_name)`. -/
def Select.rename (s : Select) (new_label_name new_name : String) : Select :=
  { s with label_name := new_label_name, name := some new_name }

/-- A `FormField` of the form: either a `DateSelector` or a `Select`. -/
inductive Field where
  | date (d : DateSelector)
  | sel (s : Select)
deriving Repr, DecidableEq

/-- `field.name`. -/
def Field.name : Field → Option String
  | .date d => d.name
  | .sel s => s.name

/-- `field.value` setter dispatch. -/
def Field.setValue : Field → Option String → Field × Option Err
  | .date d, v => let (d', e) := d.setValue v; (.date d', e)
  | .sel s, v => let (s', e) := s.setValue v; (.sel s', e)

/-- `field.value` getter dispatch (`DateSelector` always holds a string). -/
def Field.valueGet : Field → Option String
  | .date d => some d.valueGet
  | .sel s => s.valueGet

/-- Class `FilterForm`. -/
structure FilterForm where
  _fields : List Field
  action : String
  cgi_method : String
  request_method : String
deriving Repr, DecidableEq

/-- Index of the last list element satisfying `p`, or `none`. -/
def lastIdxWhere {α : Type} (p : α → Bool) : List α → Option Nat
  | [] => none
  | a :: l =>
    match lastIdxWhere p l with
    | some i => some (i + 1)
    | none => if p a then some 0 else none

/-- `FilterForm.get_field` resolved to an index: the comprehension
`{ field.name : field for field in self._fields }` keeps, for a duplicated
name, the last field, so lookup finds the last field with that name. -/
def FilterForm.getFieldIdx (ff : FilterForm) (field_name : String) : Option Nat :=
  lastIdxWhere (fun f => f.name == some field_name) ff._fields

/-- The `KeyError` message of `get_field` / `update` / `set_field`. -/
def unknownFieldMsg (field_name : String) : String :=
  "Field with name '" ++ field_name ++ "' not found in FilterForm."

/-- `form[field_name] = field_value` (`__setitem__`): look the field up by
name (raising `KeyError` if absent) and run its `value` setter, which may
itself raise and may leave the field mutated. -/
def FilterForm.setItem (ff : FilterForm) (field_name : String)
    (field_value : Option String) : FilterForm × Option Err :=
  match ff.getFieldIdx field_name with
  | none => (ff, some (.keyError (unknownFieldMsg field_name)))
  | some i =>
    match ff._fields.get? i with
    | none => (ff, some (.keyError (unknownFieldMsg field_name)))
    | some f =>
      let (f', e) := f.setValue field_value
      ({ ff with _fields := ff._fields.set i f' }, e)

/-- `FilterForm.update`: apply `self[k] = v` for each pair in iteration
order; a `KeyError` (unknown field) is swallowed when
`is_ignore_unknown_fields` is true and re-raised (same message) when false;
any other error (a field's own `ValueError`) aborts the remaining updates. -/
def FilterForm.update (ff : FilterForm) (field_values : List (String × Option String))
    (is_ignore_unknown_fields : Bool) : FilterForm × Option Err :=
  match field_values with
  | [] => (ff, none)
  | (k, v) :: rest =>
    let (ff', e) := ff.setItem k v
    match e with
    | none => ff'.update rest is_ignore_unknown_fields
    | some (.keyError _) =>
      if is_ignore_unknown_fields then ff'.update rest is_ignore_unknown_fields
      else (ff', some (.keyError (unknownFieldMsg k)))
    | some e => (ff', some e)

/-- `FilterForm.set_field`: reject a nameless field with `ValueError`; else
replace the first field with the same name in place; `KeyError` when no
field has that name (never inserts). -/
def FilterForm.set_field (ff : FilterForm) (field : Field) : FilterForm × Option Err :=
  match field.name with
  | none => (ff, some (.valueError "Field must have a name to be set in FilterForm."))
  | some n =>
    match ff._fields.findIdx? (fun f => f.name == some n) with
    | some i => ({ ff with _fields := ff._fields.set i field }, none)
    | none => (ff, some (.keyError (unknownFieldMsg n)))

/-- A Python argument that may fail an `isinstance` check: `.val` is a value
of the expected runtime type, `.wrongType` any value of another type. -/
inductive PyIn (α : Type) where
  | val (a : α)
  | wrongType
deriving Repr, DecidableEq

/-- A `rows` element for `extract_rows_unique_value`: a dict from string keys
to values which are either `None` (`Option.none`) or of the comparable
value type `α`. -/
abbrev RowIn (α : Type) := PyIn (List (String × Option α))

/-- The values `row[k]` over all rows (each dict has the full key set when
this is used, so `lookup` finds the entry). Python `None` is kept here. -/
def columnCells {α : Type} (k : String) (rows : List (RowIn α)) : List (Option α) :=
  rows.filterMap (fun r =>
    match r with
    | .val es => es.lookup k
    | .wrongType => none)

/-- `extract_rows_unique_value(rows)`: per key of the first row, the sorted
distinct non-`None` values over all rows; `ValueError` when the input is
not a list of dicts or key sets differ from the first row's. Python builds
a `set` per key and sorts the non-`None` members, which is the sorted
deduplication of the column's non-`None` cells; the result dict's keys
follow the first row's key order. -/
def extract_rows_unique_value {α : Type} [LinearOrder α]
    (rows : PyIn (List (RowIn α))) : Except Err (List (String × List α)) :=
  match rows with
  | .wrongType => .error (.valueError "Expected a list of dictionaries")
  | .val [] => .ok []
  | .val (.wrongType :: _) => .error (.valueError "Expected a list of dictionaries")
  | .val (rs@(.val entries0 :: _)) =>
    let keys := entries0.map Prod.fst
    if rs.all (fun r =>
        match r with
        | .val es => decide ((es.map Prod.fst).toFinset = keys.toFinset)
        | .wrongType => false) then
      .ok (keys.map (fun k =>
        (k, List.insertionSort (· ≤ ·) ((columnCells k rs).filterMap id).dedup)))
    else .error (.valueError "All rows must be dictionaries with the same keys")

/-- `parse_cgi_value(cgiValues, keys, default_value)`: for each key, the
string form of a present, truthy value different from the sentinel, else
`None`; `ValueError` when either argument has the wrong runtime type. The
values are strings (per the signature), so `str(value)` is the value
itself. -/
def parse_cgi_value (cgiValues : PyIn (List (String × String)))
    (keys : PyIn (List String)) (default_value : String) :
    Except Err (List (String × Option String)) :=
  match cgiValues with
  | .wrongType => .error (.valueError "Expected a dictionary for cgiValues")
  | .val cv =>
    match keys with
    | .wrongType => .error (.valueError "Expected a list for keys")
    | .val ks =>
      .ok (ks.map (fun k =>
        (k, match cv.lookup k with
            | some v => if !v.isEmpty && v != default_value then some v else none
            | none => none)))

/-- The pairs of a successful utility result (`[]` for an error). -/
def okList {β : Type} : Except Err (List β) → List β
  | .ok l => l
  | .error _ => []

/-- Whether an `Except` result is a success. -/
def isOkE {β : Type} : Except Err β → Bool
  | .ok _ => true
  | .error _ => false

/-- Whether a raised error (if any) is a `ValueError`. -/
def isValueErr : Option Err → Bool
  | some (.valueError _) => true
  | _ => false

/-- The `DateSelector` states reachable, for a fixed `today`, from a
construction whose `value` argument is falsy or a string accepted by
`strptime`, through any sequence of `value`-setter calls (including
failing ones: a raise leaves the object as the setter left it). -/
inductive DateSelector.ReachableFrom (today : String) : DateSelector → Prop where
  | construct (name : String) (label_name : Option String) (value : Option String)
      (hv : strTruthy value = false ∨ ∃ s, value = some s ∧ isValidDateString s = true) :
      ReachableFrom today (DateSelector.make today name label_name value)
  | setValueStep (d : DateSelector) (v : Option String)
      (hd : ReachableFrom today d) : ReachableFrom today (d.setValue v).1

/-- The `Select` states reachable from a successful construction through
any sequence of `value`-setter calls (successful or raising), `reset`,
and `rename`. -/
inductive Select.Reachable : Select → Prop where
  | construct (name label_name : String) (options : List String) (value : Option String)
      (hz : (Select.make name label_name options value).2 = none) :
      Reachable (Select.make name label_name options value).1
  | setValueStep (s : Select) (v : Option String) (hs : Reachable s) :
      Reachable (s.setValue v).1
  | resetStep (s : Select) (hs : Reachable s) : Reachable s.reset
  | renameStep (s : Select) (new_label_name new_name : String) (hs : Reachable s) :
      Reachable (s.rename new_label_name new_name)

/-- Single-selection invariant of a `Select`: either nothing is selected
and `selIdx` is clear, or `selIdx` points at the unique flagged option. -/
def Select.Inv (s : Select) : Prop :=
  (s.selIdx = none ∧ ∀ o ∈ s._options, o.is_selected = false) ∨
  (∃ pre o post, s._options = pre ++ o :: post ∧ s.selIdx = some pre.length ∧
      o.is_selected = true ∧ (∀ x ∈ pre, x.is_selected = false) ∧
      (∀ x ∈ post, x.is_selected = false))

/-! ## Theorems -/

theorem strTruthy_of_valid {s : String} (h : isValidDateString s = true) :
    strTruthy (some s) = true := by
  have he : s.isEmpty = false := by
    cases hb : s.isEmpty
    · rfl
    · exfalso
      have hs : s = "" := (String.isEmpty_iff s).mp hb
      rw [hs] at h
      exact absurd h (by decide)
  simp [strTruthy, he]

theorem dateSetValue_invalid (d : DateSelector) (s : String)
    (hs : isValidDateString s = false) :
    d.setValue (some s) =
      (d, some (.valueError
        ("Invalid date format for '" ++ s ++ "'. Expected format: %Y-%m-%d"))) := by
  simp [DateSelector.setValue, hs]

/-- C5: for every string accepted by the fixed `%Y-%m-%d` pattern, setting
`DateSelector.value` to it succeeds and the getter then returns exactly
that string, stored verbatim. -/
theorem C5_date_roundtrip (d : DateSelector) (s : String)
    (hs : isValidDateString s = true) :
    (d.setValue (some s)).1.valueGet = s ∧ (d.setValue (some s)).2 = none := by
  simp [DateSelector.setValue, hs, DateSelector.valueGet]

theorem C5_date_roundtrip_witness :
    isValidDateString "2024-02-29" = true ∧
    ((DateSelector.make "2024-05-01" "start_date" none none).setValue
        (some "2024-02-29")).1.valueGet = "2024-02-29" ∧
    ((DateSelector.make "2024-05-01" "start_date" none none).setValue
        (some "2024-02-29")).2 = none := by
  have h := C5_date_roundtrip (DateSelector.make "2024-05-01" "start_date" none none)
    "2024-02-29" (by decide)
  exact ⟨by decide, h.1, h.2⟩

/-- C6: for every string the fixed pattern rejects, the `DateSelector.value`
setter raises `ValueError` (the spec's `ValidationError`) and the stored
value is unchanged. -/
theorem C6_date_invalid_rejected (d : DateSelector) (s : String)
    (hs : isValidDateString s = false) :
    (d.setValue (some s)).1 = d ∧
    (d.setValue (some s)).2 = some (.valueError
      ("Invalid date format for '" ++ s ++ "'. Expected format: %Y-%m-%d")) := by
  rw [dateSetValue_invalid d s hs]
  exact ⟨rfl, rfl⟩

theorem C6_date_invalid_rejected_witness :
    isValidDateString "2023-02-29" = false ∧
    ((DateSelector.make "2024-05-01" "d" none none).setValue (some "2023-02-29")).1 =
      DateSelector.make "2024-05-01" "d" none none ∧
    ((DateSelector.make "2024-05-01" "d" none none).setValue (some "2023-02-29")).2 =
      some (.valueError
        "Invalid date format for '2023-02-29'. Expected format: %Y-%m-%d") := by
  have h := C6_date_invalid_rejected (DateSelector.make "2024-05-01" "d" none none)
    "2023-02-29" (by decide)
  exact ⟨by decide, h.1, h.2⟩

/-- C1 (as stated) is false: an explicit truthy construction `value` is
written by the base-class constructor without validation, so right after
`DateSelector(name, label, "garbage")` the stored value is `"garbage"`,
which is neither the construction default nor a string the pattern
accepts. -/
theorem C1_counterexample :
    (DateSelector.make "2024-05-01" "start_date" none (some "garbage"))._value
      = "garbage" ∧
    ("garbage" : String) ≠ "2024-05-01" ∧
    isValidDateString "garbage" = false :=
  ⟨rfl, by decide, by decide⟩

/-- C1 (amended): for every `DateSelector` whose construction `value`
argument was falsy or itself accepted by the pattern, at every point
afterwards the stored value is either the construction default (`today`)
or a string the pattern accepts; and every setter input the pattern
rejects raises `ValueError` without mutating state. -/
theorem C1_date_value_invariant (today : String) (d : DateSelector)
    (hd : DateSelector.ReachableFrom today d) :
    (d._value = today ∨ isValidDateString d._value = true) ∧
    ∀ s : String, isValidDateString s = false →
      (d.setValue (some s)).1 = d ∧ isValueErr (d.setValue (some s)).2 = true := by
  have hrej : ∀ (d' : DateSelector) (s : String), isValidDateString s = false →
      (d'.setValue (some s)).1 = d' ∧ isValueErr (d'.setValue (some s)).2 = true := by
    intro d' s hs
    rw [dateSetValue_invalid d' s hs]
    exact ⟨rfl, rfl⟩
  induction hd with
  | construct name label_name value hv =>
    refine ⟨?_, hrej _⟩
    rcases hv with hf | ⟨s, rfl, hs⟩
    · left
      simp [DateSelector.make, hf]
    · right
      simpa [DateSelector.make, strTruthy_of_valid hs] using hs
  | setValueStep d v hd ih =>
    refine ⟨?_, hrej _⟩
    match v with
    | none => exact ih.1
    | some s =>
      by_cases hs : isValidDateString s = true
      · right
        simp [DateSelector.setValue, hs]
      · have hs' : isValidDateString s = false := by simpa using hs
        have he := (hrej d s hs').1
        rw [he]
        exact ih.1

theorem C1_date_value_invariant_witness :
    ((DateSelector.make "2024-05-01" "n" none none)._value = "2024-05-01" ∨
      isValidDateString (DateSelector.make "2024-05-01" "n" none none)._value = true) ∧
    ((DateSelector.make "2024-05-01" "n" none none).setValue (some "junk")).1 =
      DateSelector.make "2024-05-01" "n" none none ∧
    isValueErr ((DateSelector.make "2024-05-01" "n" none none).setValue
      (some "junk")).2 = true := by
  have h := C1_date_value_invariant "2024-05-01"
    (DateSelector.make "2024-05-01" "n" none none)
    (.construct "n" none none (Or.inl rfl))
  exact ⟨h.1, (h.2 "junk" (by decide)).1, (h.2 "junk" (by decide)).2⟩

/-! ### Select lemmas -/

theorem reset_all_unselected (s : Select) :
    ∀ o ∈ s.reset._options, o.is_selected = false := by
  intro o ho
  rcases List.mem_map.mp ho with ⟨x, _, rfl⟩
  rfl

theorem availableRepr_reset (s : Select) :
    availableRepr s.reset._options = availableRepr s._options := by
  unfold availableRepr Select.reset
  rw [List.map_map]
  rfl

theorem selectScan_eq_none {v : String} {l : List Opt}
    (h : ∀ o ∈ l, o.value ≠ v) : selectScan v l = none := by
  induction l with
  | nil => rfl
  | cons o rest ih =>
    have ho : (o.value == v) = false := by
      simpa using h o (List.mem_cons_self o rest)
    have hrest := ih (fun x hx => h x (List.mem_cons_of_mem o hx))
    simp [selectScan, ho, hrest]

theorem selectScan_some {v : String} {l l' : List Opt} {i : Nat}
    (hall : ∀ o ∈ l, o.is_selected = false)
    (h : selectScan v l = some (l', i)) :
    ∃ pre o post, l = pre ++ o :: post ∧ i = pre.length ∧
      l' = pre ++ { o with is_selected := true } :: post ∧
      (∀ x ∈ pre, x.is_selected = false) ∧ (∀ x ∈ post, x.is_selected = false) := by
  induction l generalizing l' i with
  | nil => simp [selectScan] at h
  | cons o rest ih =>
    by_cases hov : (o.value == v) = true
    · refine ⟨[], o, rest, rfl, ?_, ?_, by simp, ?_⟩
      · simp [selectScan, hov] at h
        exact h.2.symm
      · simp [selectScan, hov] at h
        rw [← h.1]
        rfl
      · intro x hx
        exact hall x (List.mem_cons_of_mem o hx)
    · have hov' : (o.value == v) = false := by simpa using hov
      cases hscan : selectScan v rest with
      | none => simp [selectScan, hov', hscan] at h
      | some pr =>
        obtain ⟨rest', j⟩ := pr
        simp [selectScan, hov', hscan] at h
        obtain ⟨hl', hi⟩ := h
        obtain ⟨pre, o₀, post, hrest, hj, hrest', hpre, hpost⟩ :=
          ih (fun x hx => hall x (List.mem_cons_of_mem o hx)) hscan
        refine ⟨o :: pre, o₀, post, by rw [hrest]; rfl, by simp [hj, ← hi],
          by rw [← hl', hrest']; rfl, ?_, hpost⟩
        intro x hx
        rcases List.mem_cons.mp hx with rfl | hx
        · exact hall x (List.mem_cons_self x rest)
        · exact hpre x hx

/-- The `value` setter when no option's value matches: the object is left
fully reset and `ValueError` is raised with the not-found message. -/
theorem setValue_no_match (s : Select) (v : String)
    (hv : ∀ o ∈ s._options, o.value ≠ v) :
    s.setValue (some v) =
      (s.reset, some (.valueError
        ("failed to select value '" ++ v ++ "' in Select '" ++ pyShowName s.name ++
          "'. available: " ++ availableRepr s._options))) := by
  have hv' : ∀ o ∈ s.reset._options, o.value ≠ v := by
    intro o ho
    rcases List.mem_map.mp ho with ⟨x, hx, rfl⟩
    exact hv x hx
  have hscan := selectScan_eq_none hv'
  simp only [Select.setValue, hscan, availableRepr_reset]
  rfl

theorem inv_reset (s : Select) : s.reset.Inv :=
  Or.inl ⟨rfl, reset_all_unselected s⟩

theorem inv_setValue (s : Select) (v : Option String) (hs : s.Inv) :
    (s.setValue v).1.Inv := by
  match v with
  | none => exact hs
  | some str =>
    have hall := reset_all_unselected s
    cases hscan : selectScan str s.reset._options with
    | none =>
      simp only [Select.setValue, hscan]
      exact inv_reset s
    | some pr =>
      obtain ⟨opts', i⟩ := pr
      obtain ⟨pre, o, post, hl, hi, hl', hpre, hpost⟩ := selectScan_some hall hscan
      simp only [Select.setValue, hscan]
      exact Or.inr ⟨pre, { o with is_selected := true }, post, hl', by simp [hi],
        rfl, hpre, hpost⟩

theorem inv_rename (s : Select) (new_label_name new_name : String) (hs : s.Inv) :
    (s.rename new_label_name new_name).Inv := hs

theorem inv_make (name label_name : String) (options : List String)
    (value : Option String) : (Select.make name label_name options value).1.Inv := by
  unfold Select.make
  exact inv_setValue _ _ (inv_reset _)

theorem reachable_inv (s : Select) (hs : s.Reachable) : s.Inv := by
  induction hs with
  | construct name label_name options value hz => exact inv_make name label_name options value
  | setValueStep s v _ ih => exact inv_setValue s v ih
  | resetStep s _ _ => exact inv_reset s
  | renameStep s new_label_name new_name _ ih => exact inv_rename s new_label_name new_name ih

theorem countP_zero_of_all {l : List Opt} (h : ∀ o ∈ l, o.is_selected = false) :
    l.countP (·.is_selected) = 0 :=
  List.countP_eq_zero.mpr (fun a ha => by simp [h a ha])

theorem find?_first {p : Opt → Bool} {pre : List Opt} {o : Opt} {post : List Opt}
    (hpre : ∀ x ∈ pre, p x = false) (ho : p o = true) :
    (pre ++ o :: post).find? p = some o := by
  induction pre with
  | nil => simp [List.find?, ho]
  | cons a l ih =>
    have ha : p a = false := hpre a (List.mem_cons_self a l)
    have hl := ih (fun x hx => hpre x (List.mem_cons_of_mem a hx))
    simpa [List.find?, ha] using hl

theorem get?_append_length {pre : List Opt} {o : Opt} {post : List Opt} :
    (pre ++ o :: post).get? pre.length = some o := by
  induction pre with
  | nil => rfl
  | cons a l ih => exact ih

/-! ### Select claims -/

/-- C2: for every `Select` and every target value no option's value equals,
the `value` setter raises `ValueError` (the spec's `ValueNotFoundError`)
naming the attempted value and the available ones; afterwards every option
is unselected and the getter returns `None` (the prior selection is not
restored — the object is exactly its reset). -/
theorem C2_select_value_not_found (s : Select) (v : String)
    (hv : ∀ o ∈ s._options, o.value ≠ v) :
    (s.setValue (some v)).1 = s.reset ∧
    (s.setValue (some v)).2 = some (.valueError
      ("failed to select value '" ++ v ++ "' in Select '" ++ pyShowName s.name ++
        "'. available: " ++ availableRepr s._options)) ∧
    (∀ o ∈ (s.setValue (some v)).1._options, o.is_selected = false) ∧
    (s.setValue (some v)).1.valueGet = none := by
  have h := setValue_no_match s v hv
  refine ⟨by rw [h], by rw [h], ?_, by rw [h]; rfl⟩
  rw [h]
  exact reset_all_unselected s

theorem C2_select_value_not_found_witness :
    (((Select.make "f" "F" ["a", "b"] none).1.setValue (some "z")).2 =
      some (.valueError
        "failed to select value 'z' in Select 'f'. available: ['ANY', 'a', 'b']")) ∧
    (∀ o ∈ (((Select.make "f" "F" ["a", "b"] none).1.setValue (some "z")).1._options),
      o.is_selected = false) ∧
    (((Select.make "f" "F" ["a", "b"] none).1.setValue (some "z")).1.valueGet = none) := by
  have h := C2_select_value_not_found (Select.make "f" "F" ["a", "b"] none).1 "z"
    (by decide)
  exact ⟨by rw [h.2.1]; rfl, h.2.2.1, h.2.2.2⟩

/-- C4: in every `Select` state reachable by construction, `value` setter
calls (successful or raising), `reset` and `rename`, at most one option is
selected, and the `value` getter returns the selected option's value when
one is selected and `None` otherwise. -/
theorem C4_single_selection (s : Select) (hs : Select.Reachable s) :
    s._options.countP (·.is_selected) ≤ 1 ∧
    s.valueGet = (s._options.find? (·.is_selected)).map (·.value) := by
  rcases reachable_inv s hs with ⟨hsel, hall⟩ | ⟨pre, o, post, hl, hsel, ho, hpre, hpost⟩
  · constructor
    · rw [countP_zero_of_all hall]
      exact Nat.zero_le 1
    · have hf : s._options.find? (·.is_selected) = none :=
        List.find?_eq_none.mpr (fun x hx => by simp [hall x hx])
      simp [Select.valueGet, hsel, hf]
  · constructor
    · rw [hl, List.countP_append, countP_zero_of_all hpre, List.countP_cons,
        countP_zero_of_all hpost]
      simp [ho]
    · have hf : s._options.find? (·.is_selected) = some o := by
        rw [hl]
        exact find?_first (fun x hx => by simp [hpre x hx]) (by simp [ho])
      rw [hf]
      simp only [Select.valueGet, hsel]
      rw [hl, get?_append_length]

theorem C4_single_selection_witness :
    (((Select.make "f" "F" ["a", "b"] none).1.setValue (some "a")).1._options.countP
        (·.is_selected) ≤ 1) ∧
    (((Select.make "f" "F" ["a", "b"] none).1.setValue (some "a")).1.valueGet =
      ((((Select.make "f" "F" ["a", "b"] none).1.setValue (some "a")).1._options.find?
        (·.is_selected)).map (·.value))) :=
  C4_single_selection _
    (.setValueStep _ (some "a") (.construct "f" "F" ["a", "b"] none (by decide)))

/-- C10 (as stated) is false in one respect: when one of the given options
is itself the empty string, the post-construction setter call with `""`
finds it and succeeds instead of raising. -/
theorem C10_counterexample :
    (((Select.make "f" "F" [""] none).1.setValue (some "")).2 = none) ∧
    (((Select.make "f" "F" [""] none).1.setValue (some "")).1.valueGet = some "") :=
  ⟨by decide, by decide⟩

/-- C10 (amended): constructing a `Select` with a falsy `value` argument
(absent/`None` as well as `""`) never raises — the sentinel option `"ANY"`
at position 0 ends up selected — and a subsequent `value` setter call with
the empty string raises `ValueError` (the spec's `ValueNotFoundError`)
provided no given option is the empty string. -/
theorem C10_falsy_construction (name label_name : String) (options : List String)
    (value : Option String) (hv : strTruthy value = false) :
    ((Select.make name label_name options value).2 = none) ∧
    ((Select.make name label_name options value).1.selIdx = some 0) ∧
    ((Select.make name label_name options value).1.valueGet = some "ANY") ∧
    (¬ "" ∈ options →
      isValueErr ((Select.make name label_name options value).1.setValue
        (some "")).2 = true) := by
  have hmk : Select.make name label_name options value =
      ({ name := some name, label_name := label_name,
         _options := { value := "ANY", is_selected := true } ::
           options.map (fun o => { value := o, is_selected := false }),
         selIdx := some 0 }, none) := by
    simp only [Select.make, hv, Bool.false_eq_true, if_false, Opt.default_value]
    simp only [Select.setValue, Select.reset, List.map_cons, List.map_map,
      selectScan]
    rfl
  refine ⟨by rw [hmk], by rw [hmk], by rw [hmk]; rfl, ?_⟩
  intro h2
  rw [hmk]
  have hv' : ∀ o ∈ ({ value := "ANY", is_selected := true } ::
      options.map (fun o => ({ value := o, is_selected := false } : Opt))),
      o.value ≠ "" := by
    intro o ho
    rcases List.mem_cons.mp ho with rfl | ho
    · decide
    · rcases List.mem_map.mp ho with ⟨x, hx, rfl⟩
      intro hx0
      apply h2
      have hx0' : x = "" := hx0
      rwa [hx0'] at hx
  have h := setValue_no_match
    { name := some name, label_name := label_name,
      _options := { value := "ANY", is_selected := true } ::
        options.map (fun o => { value := o, is_selected := false }),
      selIdx := some 0 } "" hv'
  rw [h]
  rfl

theorem C10_falsy_construction_witness :
    ((Select.make "g" "G" ["a"] (some "")).2 = none) ∧
    ((Select.make "g" "G" ["a"] (some "")).1.valueGet = some "ANY") ∧
    isValueErr ((Select.make "g" "G" ["a"] (some "")).1.setValue (some "")).2 = true := by
  have h := C10_falsy_construction "g" "G" ["a"] (some "") (by decide)
  exact ⟨h.1, h.2.2.1, h.2.2.2 (by decide)⟩

/-! ### FilterForm lemmas and claims -/

theorem lastIdxWhere_eq_none {α : Type} {p : α → Bool} {l : List α}
    (h : ∀ a ∈ l, p a = false) : lastIdxWhere p l = none := by
  induction l with
  | nil => rfl
  | cons a l ih =>
    have ha := h a (List.mem_cons_self a l)
    have hl := ih (fun x hx => h x (List.mem_cons_of_mem a hx))
    simp [lastIdxWhere, hl, ha]

theorem setItem_unknown (ff : FilterForm) (k : String) (v : Option String)
    (hk : ∀ f ∈ ff._fields, f.name ≠ some k) :
    ff.setItem k v = (ff, some (.keyError (unknownFieldMsg k))) := by
  have h : ff.getFieldIdx k = none := by
    apply lastIdxWhere_eq_none
    intro f hf
    exact beq_eq_false_iff_ne.mpr (hk f hf)
  simp [FilterForm.setItem, h]

/-- `update` processes its pairs left to right: an error-free prefix is
applied first and the rest continues from the resulting form. -/
theorem update_append (kvs₁ : List (String × Option String)) (ff : FilterForm)
    (kvs₂ : List (String × Option String)) (b : Bool) (ff₁ : FilterForm)
    (h : ff.update kvs₁ b = (ff₁, none)) :
    ff.update (kvs₁ ++ kvs₂) b = ff₁.update kvs₂ b := by
  induction kvs₁ generalizing ff with
  | nil =>
    have h' : ff = ff₁ := congrArg Prod.fst h
    rw [List.nil_append, h']
  | cons kv rest ih =>
    obtain ⟨k, v⟩ := kv
    cases hset : ff.setItem k v with
    | mk ff' e =>
      cases e with
      | none =>
        have h' : ff'.update rest b = (ff₁, none) := by
          simpa [FilterForm.update, hset] using h
        have := ih ff' h'
        simpa [FilterForm.update, hset] using this
      | some err =>
        cases err with
        | keyError m =>
          cases b with
          | false => simp [FilterForm.update, hset] at h
          | true =>
            have h' : ff'.update rest true = (ff₁, none) := by
              simpa [FilterForm.update, hset] using h
            have := ih ff' h'
            simpa [FilterForm.update, hset] using this
        | valueError m => simp [FilterForm.update, hset] at h

/-- C3: `FilterForm.update` applies the pairs in iteration order (an
error-free prefix is applied before the rest); a key naming no field of the
form is skipped silently when unknown fields are ignored (the update step
is the identity, so the form is unchanged by it and no error is raised),
and makes it fail with `KeyError` (the spec's `UnknownFieldError`) naming
that key when they are not. -/
theorem C3_update_unknown_field (ff : FilterForm) (k : String) (v : Option String)
    (rest : List (String × Option String))
    (hk : ∀ f ∈ ff._fields, f.name ≠ some k) :
    ff.update ((k, v) :: rest) true = ff.update rest true ∧
    ff.update ((k, v) :: rest) false = (ff, some (.keyError (unknownFieldMsg k))) ∧
    ff.update [(k, v)] true = (ff, none) ∧
    (∀ (kvs₁ kvs₂ : List (String × Option String)) (b : Bool) (ff₁ : FilterForm),
      ff.update kvs₁ b = (ff₁, none) →
      ff.update (kvs₁ ++ kvs₂) b = ff₁.update kvs₂ b) := by
  have h := setItem_unknown ff k v hk
  refine ⟨?_, ?_, ?_, fun kvs₁ kvs₂ b ff₁ hp => update_append kvs₁ ff kvs₂ b ff₁ hp⟩
  · simp [FilterForm.update, h]
  · simp [FilterForm.update, h]
  · simp [FilterForm.update, h]

theorem C3_update_unknown_field_witness :
    (FilterForm.update
      { _fields := [.date (DateSelector.make "2024-05-01" "start_date" none none)],
        action := "/dashboard/", cgi_method := "m", request_method := "GET" }
      [("unknown", some "x")] true =
      ({ _fields := [.date (DateSelector.make "2024-05-01" "start_date" none none)],
         action := "/dashboard/", cgi_method := "m", request_method := "GET" }, none)) ∧
    (FilterForm.update
      { _fields := [.date (DateSelector.make "2024-05-01" "start_date" none none)],
        action := "/dashboard/", cgi_method := "m", request_method := "GET" }
      [("unknown", some "x")] false =
      ({ _fields := [.date (DateSelector.make "2024-05-01" "start_date" none none)],
         action := "/dashboard/", cgi_method := "m", request_method := "GET" },
       some (.keyError (unknownFieldMsg "unknown")))) := by
  have h := C3_update_unknown_field
    { _fields := [.date (DateSelector.make "2024-05-01" "start_date" none none)],
      action := "/dashboard/", cgi_method := "m", request_method := "GET" }
    "unknown" (some "x") [] (by decide)
  exact ⟨h.2.2.1, h.2.1⟩

theorem findIdx?_first {α : Type} {p : α → Bool} {pre : List α} {a : α}
    {post : List α} (hpre : ∀ x ∈ pre, p x = false) (ha : p a = true) :
    (pre ++ a :: post).findIdx? p = some pre.length := by
  induction pre with
  | nil => simp [List.findIdx?_cons, ha]
  | cons b l ih =>
    have hb : p b = false := hpre b (List.mem_cons_self b l)
    have hl := ih (fun x hx => hpre x (List.mem_cons_of_mem b hx))
    simp [List.findIdx?_cons, hb, hl]

theorem set_append_length {α : Type} (pre : List α) (a x : α) (post : List α) :
    (pre ++ a :: post).set pre.length x = pre ++ x :: post := by
  induction pre with
  | nil => rfl
  | cons b l ih =>
    simp only [List.cons_append, List.length_cons, List.set_cons_succ]
    rw [ih]

/-- C9: `FilterForm.set_field` raises `ValueError` (the spec's
`InvalidFieldError`) for a nameless field, raises `KeyError` (the spec's
`UnknownFieldError`) without touching the form when no field has the given
name (it never inserts), and otherwise replaces the first field carrying
that name at its position, leaving every other field and its position
unchanged. -/
theorem C9_set_field (ff : FilterForm) (field : Field) :
    (field.name = none →
      ff.set_field field =
        (ff, some (.valueError "Field must have a name to be set in FilterForm."))) ∧
    (∀ n : String, field.name = some n → (∀ f ∈ ff._fields, f.name ≠ some n) →
      ff.set_field field = (ff, some (.keyError (unknownFieldMsg n)))) ∧
    (∀ (n : String) (pre : List Field) (f₀ : Field) (post : List Field),
      field.name = some n → ff._fields = pre ++ f₀ :: post → f₀.name = some n →
      (∀ x ∈ pre, x.name ≠ some n) →
      (ff.set_field field).2 = none ∧
      (ff.set_field field).1._fields = pre ++ field :: post ∧
      (ff.set_field field).1.action = ff.action ∧
      (ff.set_field field).1.cgi_method = ff.cgi_method ∧
      (ff.set_field field).1.request_method = ff.request_method) := by
  refine ⟨?_, ?_, ?_⟩
  · intro hn
    simp [FilterForm.set_field, hn]
  · intro n hn hnone
    have hidx : ff._fields.findIdx? (fun f => f.name == some n) = none :=
      List.findIdx?_eq_none_iff.mpr
        (fun f hf => beq_eq_false_iff_ne.mpr (hnone f hf))
    simp [FilterForm.set_field, hn, hidx]
  · intro n pre f₀ post hn hl hf₀ hpre
    have hidx : ff._fields.findIdx? (fun f => f.name == some n) = some pre.length := by
      rw [hl]
      exact findIdx?_first
        (fun x hx => beq_eq_false_iff_ne.mpr (hpre x hx)) (by simp [hf₀])
    simp only [FilterForm.set_field, hn, hidx]
    rw [hl, set_append_length]
    simp

theorem C9_set_field_witness :
    (FilterForm.set_field
      { _fields := [.date (DateSelector.make "2024-05-01" "start_date" (some "S") none),
                    .date (DateSelector.make "2024-05-01" "end_date" (some "E") none)],
        action := "/dashboard/", cgi_method := "m", request_method := "GET" }
      (.date (DateSelector.make "2024-05-01" "end_date" (some "E") (some "2024-06-01")))).2
      = none ∧
    (FilterForm.set_field
      { _fields := [.date (DateSelector.make "2024-05-01" "start_date" (some "S") none),
                    .date (DateSelector.make "2024-05-01" "end_date" (some "E") none)],
        action := "/dashboard/", cgi_method := "m", request_method := "GET" }
      (.date (DateSelector.make "2024-05-01" "end_date" (some "E")
        (some "2024-06-01")))).1._fields
      = [.date (DateSelector.make "2024-05-01" "start_date" (some "S") none),
         .date (DateSelector.make "2024-05-01" "end_date" (some "E") (some "2024-06-01"))] := by
  have h := (C9_set_field
    { _fields := [.date (DateSelector.make "2024-05-01" "start_date" (some "S") none),
                  .date (DateSelector.make "2024-05-01" "end_date" (some "E") none)],
      action := "/dashboard/", cgi_method := "m", request_method := "GET" }
    (.date (DateSelector.make "2024-05-01" "end_date" (some "E") (some "2024-06-01")))).2.2
    "end_date" [.date (DateSelector.make "2024-05-01" "start_date" (some "S") none)]
    (.date (DateSelector.make "2024-05-01" "end_date" (some "E") none)) []
    (by decide) (by decide) (by decide) (by decide)
  exact ⟨h.1, h.2.1⟩

/-! ### Utility claims -/

/-- C8: `parse_cgi_value` (the spec's `normalizeParams`) maps each given key
to its looked-up value exactly when that value is present, non-empty and
different from the sentinel default, and to `None` otherwise; the result's
keys are exactly the given keys; a wrong-typed argument raises
`ValueError` (the spec's `ShapeError`). -/
theorem C8_parse_cgi (cv : List (String × String)) (ks : List String) (dv : String) :
    (∀ kk : PyIn (List String), parse_cgi_value .wrongType kk dv =
      .error (.valueError "Expected a dictionary for cgiValues")) ∧
    (parse_cgi_value (.val cv) .wrongType dv =
      .error (.valueError "Expected a list for keys")) ∧
    (isOkE (parse_cgi_value (.val cv) (.val ks) dv) = true) ∧
    ((okList (parse_cgi_value (.val cv) (.val ks) dv)).map Prod.fst = ks) ∧
    (∀ (k : String) (ov : Option String),
      (k, ov) ∈ okList (parse_cgi_value (.val cv) (.val ks) dv) →
      (∃ v, cv.lookup k = some v ∧ v ≠ "" ∧ v ≠ dv ∧ ov = some v) ∨
      (ov = none ∧ ∀ v, cv.lookup k = some v → v = "" ∨ v = dv)) := by
  refine ⟨fun kk => rfl, rfl, rfl, ?_, ?_⟩
  · simp [parse_cgi_value, okList, List.map_map, Function.comp_def]
  · intro k ov hmem
    simp only [parse_cgi_value, okList] at hmem
    rcases List.mem_map.mp hmem with ⟨k', hk', hpair⟩
    injection hpair with h1 h2
    subst h1
    subst h2
    cases hlk : List.lookup k' cv with
    | none =>
      right
      constructor
      · simp [hlk]
      · intro v hv
        cases hv
    | some v =>
      by_cases h0 : v = ""
      · right
        subst h0
        refine ⟨by simp [show ("".isEmpty : Bool) = true from rfl], ?_⟩
        intro w hw
        injection hw with hw
        exact Or.inl hw.symm
      · by_cases h1 : v = dv
        · right
          refine ⟨?_, ?_⟩
          · simp [h1]
          · intro w hw
            injection hw with hw
            subst hw
            exact Or.inr h1
        · left
          have hem : v.isEmpty = false := by
            cases hq : v.isEmpty
            · rfl
            · exact absurd ((String.isEmpty_iff v).mp hq) h0
          refine ⟨v, rfl, h0, h1, ?_⟩
          simp [hem, bne_iff_ne, h1]

theorem C8_parse_cgi_witness :
    ((okList (parse_cgi_value (.val [("k", "ANY")]) (.val ["k", "m"]) "ANY")).map
      Prod.fst = ["k", "m"]) ∧
    ((∃ v, List.lookup "k" [("k", "ANY")] = some v ∧ v ≠ "" ∧ v ≠ "ANY" ∧
        (none : Option String) = some v) ∨
      ((none : Option String) = none ∧
        ∀ v, List.lookup "k" [("k", "ANY")] = some v → v = "" ∨ v = "ANY")) := by
  have h := C8_parse_cgi [("k", "ANY")] ["k", "m"] "ANY"
  exact ⟨h.2.2.2.1, h.2.2.2.2 "k" none (by decide)⟩

/-- C7: `extract_rows_unique_value` (the spec's `extractUniqueColumnValues`)
returns, per key of the first row, the ascending-sorted distinct non-`None`
values observed across all rows; the empty list yields the empty mapping;
a non-list input, a non-dict element, or a row whose key set differs from
the first row's raises `ValueError` (the spec's `ShapeError`). -/
theorem C7_extract_unique {α : Type} [LinearOrder α] :
    (extract_rows_unique_value (α := α) (.val []) = .ok []) ∧
    (extract_rows_unique_value (α := α) .wrongType =
      .error (.valueError "Expected a list of dictionaries")) ∧
    (∀ rest : List (RowIn α),
      extract_rows_unique_value (.val (.wrongType :: rest)) =
        .error (.valueError "Expected a list of dictionaries")) ∧
    (∀ (entries0 : List (String × Option α)) (rest : List (RowIn α)),
      (∃ r ∈ (PyIn.val entries0 :: rest : List (RowIn α)),
        ∀ es : List (String × Option α), r = PyIn.val es →
          (es.map Prod.fst).toFinset ≠ (entries0.map Prod.fst).toFinset) →
      extract_rows_unique_value (.val (.val entries0 :: rest)) =
        .error (.valueError "All rows must be dictionaries with the same keys")) ∧
    (∀ (entries0 : List (String × Option α)) (rest : List (RowIn α)),
      (∀ r ∈ (PyIn.val entries0 :: rest : List (RowIn α)),
        ∃ es : List (String × Option α), r = PyIn.val es ∧
          (es.map Prod.fst).toFinset = (entries0.map Prod.fst).toFinset) →
      isOkE (extract_rows_unique_value (.val (.val entries0 :: rest))) = true ∧
      ((okList (extract_rows_unique_value (.val (.val entries0 :: rest)))).map
        Prod.fst = entries0.map Prod.fst) ∧
      (∀ (k : String) (vs : List α),
        (k, vs) ∈ okList (extract_rows_unique_value (.val (.val entries0 :: rest))) →
        vs.Sorted (· ≤ ·) ∧ vs.Nodup ∧
        (∀ x : α, x ∈ vs ↔ ∃ es : List (String × Option α),
          PyIn.val es ∈ (PyIn.val entries0 :: rest : List (RowIn α)) ∧
          es.lookup k = some (some x)))) := by
  refine ⟨rfl, rfl, fun rest => rfl, ?_, ?_⟩
  · intro entries0 rest hbad
    obtain ⟨r, hr, hne⟩ := hbad
    have hall : ((PyIn.val entries0 :: rest : List (RowIn α)).all (fun r =>
        match r with
        | .val es =>
          decide ((es.map Prod.fst).toFinset = (entries0.map Prod.fst).toFinset)
        | .wrongType => false)) = false := by
      cases hA : ((PyIn.val entries0 :: rest : List (RowIn α)).all (fun r =>
          match r with
          | .val es =>
            decide ((es.map Prod.fst).toFinset = (entries0.map Prod.fst).toFinset)
          | .wrongType => false))
      · rfl
      · exfalso
        have hpr := List.all_eq_true.mp hA r hr
        cases r with
        | wrongType => simp at hpr
        | val es => exact hne es rfl (of_decide_eq_true hpr)
    simp [extract_rows_unique_value, hall]
  · intro entries0 rest hgood
    have hall : ((PyIn.val entries0 :: rest : List (RowIn α)).all (fun r =>
        match r with
        | .val es =>
          decide ((es.map Prod.fst).toFinset = (entries0.map Prod.fst).toFinset)
        | .wrongType => false)) = true := by
      apply List.all_eq_true.mpr
      intro r hr
      obtain ⟨es, rfl, hk⟩ := hgood r hr
      exact decide_eq_true hk
    have hok : extract_rows_unique_value (.val (.val entries0 :: rest)) =
        .ok ((entries0.map Prod.fst).map (fun k => (k,
          List.insertionSort (· ≤ ·)
            ((columnCells k (.val entries0 :: rest)).filterMap id).dedup))) := by
      simp [extract_rows_unique_value, hall]
    refine ⟨by rw [hok]; rfl,
      by rw [hok]; simp [okList, List.map_map, Function.comp_def], ?_⟩
    intro k vs hmem
    rw [hok] at hmem
    simp only [okList] at hmem
    rcases List.mem_map.mp hmem with ⟨k', hk', hpair⟩
    injection hpair with h1 h2
    subst h1
    subst h2
    refine ⟨List.sorted_insertionSort _ _,
      ((List.perm_insertionSort _ _).nodup_iff).mpr (List.nodup_dedup _), ?_⟩
    intro x
    rw [(List.perm_insertionSort _ _).mem_iff, List.mem_dedup, List.mem_filterMap]
    constructor
    · rintro ⟨c, hc, hcx⟩
      have hcx' : c = some x := hcx
      subst hcx'
      simp only [columnCells] at hc
      rcases List.mem_filterMap.mp hc with ⟨r, hr, hmatch⟩
      cases r with
      | wrongType => cases hmatch
      | val es => exact ⟨es, hr, hmatch⟩
    · rintro ⟨es, hes, hlk⟩
      refine ⟨some x, ?_, rfl⟩
      simp only [columnCells]
      exact List.mem_filterMap.mpr ⟨.val es, hes, hlk⟩

theorem C7_extract_unique_witness :
    isOkE (extract_rows_unique_value (α := Int)
      (.val [.val [("a", some 1), ("b", some 5)],
             .val [("a", some 2), ("b", some 5)],
             .val [("a", none), ("b", some 7)]])) = true ∧
    (okList (extract_rows_unique_value (α := Int)
      (.val [.val [("a", some 1), ("b", some 5)],
             .val [("a", some 2), ("b", some 5)],
             .val [("a", none), ("b", some 7)]]))).map Prod.fst = ["a", "b"] ∧
    List.Sorted (· ≤ ·) ([1, 2] : List Int) ∧ ([1, 2] : List Int).Nodup := by
  have h := (C7_extract_unique (α := Int)).2.2.2.2
    [("a", some 1), ("b", some 5)]
    [.val [("a", some 2), ("b", some 5)], .val [("a", none), ("b", some 7)]]
    (by
      intro r hr
      simp only [List.mem_cons, List.not_mem_nil, or_false] at hr
      rcases hr with rfl | rfl | rfl
      · exact ⟨_, rfl, by decide⟩
      · exact ⟨_, rfl, by decide⟩
      · exact ⟨_, rfl, by decide⟩)
  have hm := h.2.2 "a" [1, 2] (by decide)
  exact ⟨h.1, h.2.1.trans (by decide), hm.1, hm.2.1⟩

end FilterFormLib
